import Mathlib

/-!
Shallow embedding of the web-scraper program (app.mjs, latest revision with
ProgressHandler / CsvHandler / BaseScraper / safeWriteFileSync) and proofs
about the claims of its specification.
-/

/-! ## Progress checkpoint (ProgressHandler, safeWriteFileSync) -/

/-- Source `ProgressHandler.loadProgress`: if the progress file exists, its
parsed `lastScrapedPage` field is returned; otherwise 1. The file content is
modelled as `Option Nat` (the stored `lastScrapedPage` value, if the file
exists). -/
def loadProgress (file : Option Nat) : Nat :=
  match file with
  | some v => v
  | none => 1

/-- Source `JSON.stringify({ lastScrapedPage: page })`. -/
def serializeProgress (page : Nat) : String :=
  "\x7b\"lastScrapedPage\":" ++ Nat.repr page ++ "\x7d"

/-- File-system state relevant to the checkpoint: the content at the progress
path and at the temporary path `progressFile + ".tmp"` (`none` = file does
not exist). -/
structure FsState where
  progress : Option String
  tmp : Option String
deriving DecidableEq, Repr

/-- Source `writeFileSync(tempFile, data)` inside `safeWriteFileSync`. -/
def writeTempFile (fs : FsState) (data : String) : FsState :=
  { fs with tmp := some data }

/-- Source `renameSync(tempFile, filePath)`: the temp file content replaces
the progress file atomically; the temp path no longer exists. -/
def renameTempOverMain (fs : FsState) : FsState :=
  { progress := fs.tmp, tmp := none }

/-- Source `safeWriteFileSync(filePath, data)`: write the temp file, then
rename it over the target path. -/
def safeWriteFileSync (fs : FsState) (data : String) : FsState :=
  renameTempOverMain (writeTempFile fs data)

/-- The observable file-system states during `safeWriteFileSync`: before the
call, after the temp-file write, and after the rename. A crash can leave the
system in any of these states. -/
def safeWriteTrace (fs : FsState) (data : String) : List FsState :=
  [fs, writeTempFile fs data, renameTempOverMain (writeTempFile fs data)]

/-- Source `ProgressHandler.saveProgress(page)`: serialize and hand to
`safeWriteFileSync`. -/
def saveProgressFs (fs : FsState) (page : Nat) : FsState :=
  safeWriteFileSync fs (serializeProgress page)

/-- A reader of the checkpoint observes the content at the progress path. -/
def readProgressFile (fs : FsState) : Option String :=
  fs.progress

/-! ## Scheduling (BaseScraper.scrapePages) -/

/-- Source page URL `base + "?page=" + N`. -/
def urlOf (u : String) (n : Nat) : String :=
  u ++ "?page=" ++ Nat.repr n

/-- Source `Array.from({ length: totalPages }, (_, i) => url + "?page=" + (i+1))`. -/
def pageUrls (u : String) (total : Nat) : List String :=
  (List.range total).map (fun i => urlOf u (i + 1))

/-- The 1-based page indices corresponding to `pageUrls`. -/
def pageIndices (total : Nat) : List Nat :=
  (List.range total).map (fun i => i + 1)

/-- Source `pageUrls.slice(this.lastScrapedPage - 1)`: the URLs for which a
queue task is submitted, given the loaded `lastScrapedPage` value. -/
def scheduledUrls (u : String) (total lsp : Nat) : List String :=
  (pageUrls u total).drop (lsp - 1)

/-- The page indices for which a queue task is submitted. -/
def scheduledIndices (total lsp : Nat) : List Nat :=
  (pageIndices total).drop (lsp - 1)

/-! ## Completion bookkeeping (the queue task body in scrapePages)

Each successful page task runs `saveProgress(this.lastScrapedPage++)`:
it persists the current `lastScrapedPage` value and then increments it,
independently of WHICH page just completed. -/

/-- One successful task completion: persist the pre-increment counter, then
increment it. The state is `(lastScrapedPage, persisted file content)`; the
completed page index is ignored by the source code. -/
def completionStep (s : Nat × Option Nat) (_page : Nat) : Nat × Option Nat :=
  (s.1 + 1, some s.1)

/-- Run a fresh scrape (no prior checkpoint, so `lastScrapedPage = 1`)
through a sequence of successful page completions given in completion
order; returns the final counter and the last persisted value. -/
def runCompletions (order : List Nat) : Nat × Option Nat :=
  order.foldl completionStep (loadProgress none, none)

/-- Length of the maximum contiguous prefix 1..n of completed page indices
(the frontier the specification asks for). Fuel-bounded search. -/
def contiguousFromOneAux : Nat → Nat → List Nat → Nat
  | 0, n, _ => n
  | fuel + 1, n, completed =>
    if (n + 1) ∈ completed then contiguousFromOneAux fuel (n + 1) completed else n

/-- Maximum `n` such that every index in `1..n` is in `completed`. -/
def contiguousFromOne (completed : List Nat) : Nat :=
  contiguousFromOneAux completed.length 0 completed

/-! ## Helper lemmas about range-based scheduling -/

theorem range'_drop (k s n : Nat) :
    (List.range' s n).drop k = List.range' (s + k) (n - k) := by
  induction k generalizing s n with
  | zero => simp
  | succ k ih =>
    cases n with
    | zero => simp
    | succ m =>
      have h1 : List.range' s (m + 1) = s :: List.range' (s + 1) m := rfl
      rw [h1]
      show (List.range' (s + 1) m).drop k = _
      rw [ih]
      have h2 : s + 1 + k = s + (k + 1) := by omega
      have h3 : m - k = m + 1 - (k + 1) := by omega
      rw [h2, h3]

theorem mem_range'_iff (m s n : Nat) :
    m ∈ List.range' s n ↔ s ≤ m ∧ m < s + n := by
  induction n generalizing s with
  | zero => simp
  | succ k ih =>
    have h1 : List.range' s (k + 1) = s :: List.range' (s + 1) k := rfl
    rw [h1, List.mem_cons, ih]
    omega

theorem pageIndices_eq_range' (total : Nat) :
    pageIndices total = List.range' 1 total := by
  rw [pageIndices, List.range'_eq_map_range]
  apply List.map_congr_left
  intro a _
  omega

/-! ## Claim C1 -/

/-- C1 (code_bug evidence): the checkpoint logic does NOT persist the maximum
contiguous prefix of completed pages. With pages 1..3 and completion order
"page 3 first, then page 2" (page 1 still pending), the code has persisted
the value 2 although the contiguous completed prefix 1..n is empty (n = 0);
under either reading of the persisted value (frontier, or frontier + 1) it
exceeds the contiguous prefix. The persisted value is also completely
insensitive to which pages completed: orders [3, 2, 1] and [1, 2, 3] persist
the same value. -/
theorem checkpoint_counter_exceeds_contiguous_completed_part :
    (runCompletions [3, 2]).2 = some 2 ∧
    contiguousFromOne [3, 2] = 0 ∧
    (runCompletions [2]).2 = some 1 ∧
    contiguousFromOne [2] = 0 ∧
    (runCompletions [3, 2, 1]).2 = (runCompletions [1, 2, 3]).2 := by
  decide

/-! ## Claim C3 -/

/-- C3: every durable checkpoint write goes through `safeWriteFileSync`,
which first writes the serialized value to the temporary path and then
atomically renames it over the checkpoint path; at every intermediate state
of that sequence (including after a crash) a reader of the checkpoint path
sees either the complete old content or the complete new serialized value,
and after completion it sees exactly the new value. -/
theorem checkpoint_write_is_temp_then_rename (fs : FsState) (page : Nat)
    (s : FsState) (hs : s ∈ safeWriteTrace fs (serializeProgress page)) :
    saveProgressFs fs page = safeWriteFileSync fs (serializeProgress page) ∧
    (readProgressFile s = fs.progress ∨
      readProgressFile s = some (serializeProgress page)) ∧
    readProgressFile (saveProgressFs fs page) = some (serializeProgress page) := by
  refine ⟨rfl, ?_, rfl⟩
  simp only [safeWriteTrace, List.mem_cons, List.not_mem_nil, or_false] at hs
  rcases hs with h | h | h <;> subst h
  · exact Or.inl rfl
  · exact Or.inl rfl
  · exact Or.inr rfl

/-- C3 witness: the reader property instantiated mid-write (after the
temp-file write, before the rename) for an old checkpoint value 4 being
replaced by 5. -/
theorem checkpoint_write_is_temp_then_rename_witness :
    saveProgressFs ⟨some (serializeProgress 4), none⟩ 5 =
      safeWriteFileSync ⟨some (serializeProgress 4), none⟩ (serializeProgress 5) ∧
    (readProgressFile (writeTempFile ⟨some (serializeProgress 4), none⟩ (serializeProgress 5)) =
        (FsState.mk (some (serializeProgress 4)) none).progress ∨
      readProgressFile (writeTempFile ⟨some (serializeProgress 4), none⟩ (serializeProgress 5)) =
        some (serializeProgress 5)) ∧
    readProgressFile (saveProgressFs ⟨some (serializeProgress 4), none⟩ 5) =
      some (serializeProgress 5) :=
  checkpoint_write_is_temp_then_rename ⟨some (serializeProgress 4), none⟩ 5
    (writeTempFile ⟨some (serializeProgress 4), none⟩ (serializeProgress 5))
    (by simp [safeWriteTrace])

/-! ## Claim C2 -/

/-- C2 counterexample: with a loaded checkpoint value of 2 and page count 3,
the code schedules tasks for pages 2 and 3 (`slice(lastScrapedPage - 1)`);
in particular page 2, which is not greater than the loaded value 2, IS
dispatched, contradicting the claim that only pages F+1..P are dispatched. -/
theorem scheduling_dispatches_loaded_value_page :
    scheduledIndices 3 (loadProgress (some 2)) = [2, 3] ∧
    2 ∈ scheduledIndices 3 (loadProgress (some 2)) ∧
    scheduledIndices 3 (loadProgress (some 2)) ≠ [3] := by
  decide

/-- C2 amended: with a loaded checkpoint value F ≥ 1 and page count P, the
scheduler submits exactly one task per page index in F..P (the loaded value
is interpreted as the first page to fetch): no dispatched index is below F,
every index in F..P is dispatched exactly once, and the dispatched URLs are
exactly `base?page=N` for those indices. -/
theorem scheduling_skips_below_loaded_value (u : String) (F P : Nat)
    (hF : 1 ≤ F) :
    scheduledIndices P (loadProgress (some F)) = List.range' F (P + 1 - F) ∧
    (∀ n : Nat, n ∈ scheduledIndices P (loadProgress (some F)) ↔ F ≤ n ∧ n ≤ P) ∧
    (scheduledIndices P (loadProgress (some F))).Nodup ∧
    scheduledUrls u P (loadProgress (some F)) =
      (scheduledIndices P (loadProgress (some F))).map (urlOf u) := by
  have hload : loadProgress (some F) = F := rfl
  have hsched : scheduledIndices P F = List.range' F (P + 1 - F) := by
    rw [scheduledIndices, pageIndices_eq_range', range'_drop]
    have h2 : 1 + (F - 1) = F := by omega
    have h3 : P - (F - 1) = P + 1 - F := by omega
    rw [h2, h3]
  refine ⟨by rw [hload]; exact hsched, ?_, ?_, ?_⟩
  · intro n
    rw [hload, hsched, mem_range'_iff]
    omega
  · rw [hload, hsched]
    have : (List.range' F (P + 1 - F)).Nodup := by
      have hmap : List.range' F (P + 1 - F) =
          (List.range (P + 1 - F)).map (fun i => F + i) := by
        rw [List.range'_eq_map_range]
      rw [hmap]
      exact (List.nodup_range _).map (fun a b hab => by omega)
    exact this
  · rw [hload, scheduledUrls, scheduledIndices, pageUrls, pageIndices]
    rw [← List.map_drop, ← List.map_drop, List.map_map]
    rfl

/-- C2 amended witness: loaded value 2, page count 4 — dispatched indices
are exactly 2, 3, 4 and page 2 is included while page 1 is not. -/
theorem scheduling_skips_below_loaded_value_witness :
    scheduledIndices 4 (loadProgress (some 2)) = List.range' 2 (4 + 1 - 2) ∧
    (∀ n : Nat, n ∈ scheduledIndices 4 (loadProgress (some 2)) ↔ 2 ≤ n ∧ n ≤ 4) ∧
    (scheduledIndices 4 (loadProgress (some 2))).Nodup ∧
    scheduledUrls "https://ex.com" 4 (loadProgress (some 2)) =
      (scheduledIndices 4 (loadProgress (some 2))).map (urlOf "https://ex.com") :=
  scheduling_skips_below_loaded_value "https://ex.com" 2 4 (by decide)

/-! ## Claim C9 -/

/-- C9: on a fresh run the loaded resume value is 1, and the scheduler
creates exactly P tasks, one per index in 1..P, all indices distinct, each
task carrying the derived URL `base?page=N`. -/
theorem fresh_run_schedules_all_pages (u : String) (P : Nat) (hP : 1 ≤ P) :
    loadProgress none = 1 ∧
    scheduledIndices P (loadProgress none) = List.range' 1 P ∧
    (scheduledIndices P (loadProgress none)).length = P ∧
    (scheduledIndices P (loadProgress none)).Nodup ∧
    scheduledUrls u P (loadProgress none) =
      (scheduledIndices P (loadProgress none)).map (urlOf u) := by
  have h1 : loadProgress none = 1 := rfl
  have h2 : scheduledIndices P (loadProgress none) = List.range' 1 P := by
    rw [h1, scheduledIndices, pageIndices_eq_range']
    rfl
  refine ⟨h1, h2, ?_, ?_, ?_⟩
  · rw [h2, List.length_range']
  · rw [h2, List.range'_eq_map_range]
    exact (List.nodup_range _).map (fun a b hab => by omega)
  · rw [h1, scheduledUrls, scheduledIndices, pageUrls, pageIndices]
    rw [← List.map_drop, ← List.map_drop, List.map_map]
    rfl

/-- C9 witness: a fresh run over 3 discovered pages schedules indices
1, 2, 3 with their derived URLs. -/
theorem fresh_run_schedules_all_pages_witness :
    loadProgress none = 1 ∧
    scheduledIndices 3 (loadProgress none) = List.range' 1 3 ∧
    (scheduledIndices 3 (loadProgress none)).length = 3 ∧
    (scheduledIndices 3 (loadProgress none)).Nodup ∧
    scheduledUrls "https://ex.com" 3 (loadProgress none) =
      (scheduledIndices 3 (loadProgress none)).map (urlOf "https://ex.com") :=
  fresh_run_schedules_all_pages "https://ex.com" 3 (by decide)

/-! ## CSV output (CsvHandler) -/

/-- Header row: the schema column names in declared order (the `columns`
option handed to `stringify`). -/
def headerLine (headers : List String) : String :=
  String.intercalate "," headers

/-- Source `stringify({ header: !existsSync(this.outputFile), ... })`:
the stringifier emits a header exactly when the output target did not exist
when the stream was initialized. The target is modelled as
`Option (List String)` (its lines, `none` = does not exist). -/
def csvHeaderFlag (existing : Option (List String)) : Bool :=
  existing.isNone

/-- One run of the CsvHandler over a target: the stream is opened in append
mode (`flags: "a"`), so the emitted lines (optional header first, then the
serialized rows in write order) follow the preexisting content. -/
def csvRun (headers : List String) (existing : Option (List String))
    (rowLines : List String) : List String :=
  existing.getD [] ++
    ((if csvHeaderFlag existing then [headerLine headers] else []) ++ rowLines)

/-! ## Claim C5 -/

/-- C5: opening a target that does not yet exist writes the header row
(schema column names in declared order) exactly once before any data row;
a second run on the now-existing target appends its rows after the existing
content without writing a header again, so across the two runs the file is
the single header followed by both runs' rows; in general a run on any
existing target emits no header at all. -/
theorem csv_header_once_per_target (headers : List String)
    (rows1 rows2 : List String) :
    csvRun headers none rows1 = headerLine headers :: rows1 ∧
    csvRun headers (some (csvRun headers none rows1)) rows2 =
      headerLine headers :: (rows1 ++ rows2) ∧
    (∀ existing rows, csvRun headers (some existing) rows = existing ++ rows) := by
  refine ⟨rfl, ?_, fun existing rows => rfl⟩
  simp [csvRun, csvHeaderFlag, headerLine]

/-! ## Record extraction (BaseScraper.parsePage with htmlparser2)

The HTML tokenizer itself is external (htmlparser2); the embedding works on
the stream of tag events it delivers, exactly the inputs the source handlers
receive. JavaScript object/string semantics are modelled explicitly: a row
is a key-ordered association list whose values may be `undefined` (`none`),
`this.currentRow` / `this.currentCell` start out undefined (the constructor
never initializes them), and writing a property of an undefined row throws
(modelled as `Except.error`). -/

/-- JS falsiness for an optional string attribute (absent or empty). -/
def jsFalsyStr (s : Option String) : Bool :=
  match s with
  | none => true
  | some v => v == ""

/-- JS `String.prototype.startsWith`. -/
def jsStartsWithStr (s p : String) : Bool :=
  p.data.isPrefixOf s.data

/-- JS `String.prototype.includes`. -/
def jsIncludesAux (sub : List Char) : List Char → Bool
  | [] => sub.isEmpty
  | c :: t => sub.isPrefixOf (c :: t) || jsIncludesAux sub t

/-- JS `String.prototype.includes` on strings. -/
def jsIncludes (s sub : String) : Bool :=
  jsIncludesAux sub.data s.data

/-- JS `String.prototype.trim` (drop leading and trailing whitespace). -/
def jsTrim (s : String) : String :=
  ⟨((s.data.dropWhile Char.isWhitespace).reverse.dropWhile Char.isWhitespace).reverse⟩

/-- A JS object used as a record: insertion-ordered keys, values possibly
`undefined`. -/
abbrev RowObj := List (String × Option String)

/-- JS `key in obj`. -/
def jsHasKey (r : RowObj) (k : String) : Bool :=
  r.any (fun p => p.1 == k)

/-- JS `obj[key] = v`: replace in place if the key exists, else append. -/
def jsSetKey (r : RowObj) (k : String) (v : Option String) : RowObj :=
  if jsHasKey r k then r.map (fun p => if p.1 == k then (k, v) else p)
  else r ++ [(k, v)]

/-- Configuration consumed by `parsePage` (from config.js): schema columns,
the two URL path prefixes with their reserved columns, the base URL, and the
sanitize-html step applied to text. -/
structure ExtractConfig where
  csvHeaders : List String
  viewUrlPath : String
  downloadUrlPath : String
  viewUrlHeader : String
  downloadUrlHeader : String
  baseUrl : String
  sanitize : String → String

/-- The scraper-instance extraction state: `this.currentRow`,
`this.currentCell` (both possibly undefined) and the rows handed to
`csvHandler.writeRow` so far. -/
structure ExtractState where
  currentRow : Option RowObj
  currentCell : Option String
  out : List RowObj
deriving DecidableEq, Repr

/-- One htmlparser2 event as consumed by the `parsePage` handlers: an open
tag with its `class` and `href` attributes, a text chunk, or a close tag. -/
inductive HtmlEvent where
  | openTag (name : String) (classAttr : Option String) (href : Option String)
  | text (s : String)
  | closeTag (name : String)
deriving DecidableEq, Repr

/-- Source `name === "tr" && (!attributes.class || !attributes.class.includes("table-striped"))`. -/
def trOpensRow (classAttr : Option String) : Bool :=
  jsFalsyStr classAttr || !(jsIncludes (classAttr.getD "") "table-striped")

/-- One step of the `parsePage` handlers (`onopentag`, `ontext`,
`onclosetag`), translated clause by clause from the source; an exception
thrown inside a handler (property access on an undefined row) is
`Except.error`. -/
def extractStep (cfg : ExtractConfig) (st : ExtractState) (ev : HtmlEvent) :
    Except Unit ExtractState :=
  match ev with
  | .openTag name classAttr href =>
    let st1 := if name == "tr" && trOpensRow classAttr then
      { st with currentRow := some [] } else st
    let st2 := if name == "td" then { st1 with currentCell := some "" } else st1
    if name == "a" && !(jsFalsyStr href) then
      let h := href.getD ""
      if jsStartsWithStr h cfg.viewUrlPath then
        match st2.currentRow with
        | none => .error ()
        | some r =>
          .ok { st2 with
            currentRow := some (jsSetKey r cfg.viewUrlHeader (some (cfg.baseUrl ++ h))) }
      else if jsStartsWithStr h cfg.downloadUrlPath then
        match st2.currentRow with
        | none => .error ()
        | some r =>
          .ok { st2 with
            currentRow := some (jsSetKey r cfg.downloadUrlHeader (some (cfg.baseUrl ++ h))) }
      else .ok st2
    else .ok st2
  | .text s =>
    match st.currentCell with
    | some c => .ok { st with currentCell := some (c ++ cfg.sanitize (jsTrim s)) }
    | none => .ok st
  | .closeTag name =>
    if name == "td" then
      match st.currentRow with
      | none => .error ()
      | some r =>
        let r2 := match cfg.csvHeaders.find? (fun h => !(jsHasKey r h)) with
          | some h => jsSetKey r h st.currentCell
          | none => r
        .ok { st with currentRow := some r2, currentCell := none }
    else if name == "tr" then
      match st.currentRow with
      | none => .error ()
      | some r =>
        if r.length > 0 then
          .ok { st with out := st.out ++ [r], currentRow := some [] }
        else .ok st
    else .ok st

/-- Source `parsePage(html)`: feed the whole event stream of one page body
through the handlers, starting from the CURRENT instance state (nothing is
reset at invocation entry). -/
def extractRun (cfg : ExtractConfig) (st : ExtractState)
    (evs : List HtmlEvent) : Except Unit ExtractState :=
  evs.foldlM (extractStep cfg) st

/-- The instance state of a freshly constructed scraper: `this.currentRow`
and `this.currentCell` are never initialized by the constructor. -/
def freshScraperState : ExtractState :=
  { currentRow := none, currentCell := none, out := [] }

/-- A concrete configuration matching the documented config.js layout. -/
def cfgEx : ExtractConfig :=
  { csvHeaders := ["name", "age"]
    viewUrlPath := "/view/"
    downloadUrlPath := "/download/"
    viewUrlHeader := "view_url"
    downloadUrlHeader := "download_url"
    baseUrl := "https://ex.com"
    sanitize := fun s => s }

/-- Event stream of the row `<tr><td>Alice</td><td>30</td><td>stray</td></tr>`. -/
def rowEventsEx : List HtmlEvent :=
  [.openTag "tr" none none,
   .openTag "td" none none, .text "Alice", .closeTag "td",
   .openTag "td" none none, .text "30", .closeTag "td",
   .openTag "td" none none, .text "stray", .closeTag "td",
   .closeTag "tr"]

/-! ## Claim C6 -/

/-- C6: on a cell end tag, when a row is open and the accumulator holds `c`,
the accumulated text is assigned to the first schema column not already
present as a key in the in-progress record and the accumulator is cleared;
when every schema column is already filled, the text is discarded (record
unchanged) and the accumulator is still cleared. Consequently the row
`<tr><td>Alice</td><td>30</td><td>stray</td></tr>` under schema
`["name", "age"]` produces exactly the record `{name: "Alice", age: "30"}`,
the stray third cell being discarded. -/
theorem cell_close_fills_first_unfilled_column (cfg : ExtractConfig)
    (st : ExtractState) (r : RowObj) (c : String)
    (hrow : st.currentRow = some r) (hcell : st.currentCell = some c) :
    (∀ h₀, cfg.csvHeaders.find? (fun h => !(jsHasKey r h)) = some h₀ →
      extractStep cfg st (.closeTag "td") =
        .ok { st with currentRow := some (r ++ [(h₀, some c)]), currentCell := none }) ∧
    (cfg.csvHeaders.find? (fun h => !(jsHasKey r h)) = none →
      extractStep cfg st (.closeTag "td") =
        .ok { st with currentRow := some r, currentCell := none }) ∧
    extractRun cfgEx freshScraperState rowEventsEx =
      .ok ⟨some [], none, [[("name", some "Alice"), ("age", some "30")]]⟩ := by
  refine ⟨?_, ?_, rfl⟩
  · intro h₀ hfind
    have hset : jsSetKey r h₀ (some c) = r ++ [(h₀, some c)] := by
      have hmem := List.find?_some hfind
      rw [jsSetKey]
      simp only [Bool.not_eq_true'] at hmem
      rw [hmem]
      simp
    simp only [extractStep, hrow, hcell, hfind]
    rw [← hset]
    rfl
  · intro hfind
    simp only [extractStep, hrow, hcell, hfind]
    rfl

/-- C6 witness: closing the first cell of the example (accumulator
`"Alice"`, empty record) assigns `"Alice"` to the first schema column
`"name"` and clears the accumulator. -/
theorem cell_close_fills_first_unfilled_column_witness :
    extractStep cfgEx ⟨some [], some "Alice", []⟩ (.closeTag "td") =
      .ok ⟨some [("name", some "Alice")], none, []⟩ :=
  (cell_close_fills_first_unfilled_column cfgEx ⟨some [], some "Alice", []⟩ []
    "Alice" rfl rfl).1 "name" rfl

/-! ## Claim C7 -/

/-- C7: an anchor start tag whose non-empty href starts with the configured
view path prefix writes `baseUrl ++ href` into the reserved view-URL column
of the current in-progress record, whatever the current cell accumulator is
(which stays untouched); an href that starts with the download path prefix
(and not with the view prefix, that branch coming first in the source)
likewise fills the reserved download-URL column. -/
theorem anchor_href_sets_reserved_url_columns (cfg : ExtractConfig)
    (st : ExtractState) (r : RowObj) (cls : Option String) (h : String)
    (hrow : st.currentRow = some r) (hne : h ≠ "") :
    (jsStartsWithStr h cfg.viewUrlPath = true →
      extractStep cfg st (.openTag "a" cls (some h)) =
        .ok { st with
          currentRow := some (jsSetKey r cfg.viewUrlHeader (some (cfg.baseUrl ++ h))) }) ∧
    (jsStartsWithStr h cfg.viewUrlPath = false →
      jsStartsWithStr h cfg.downloadUrlPath = true →
      extractStep cfg st (.openTag "a" cls (some h)) =
        .ok { st with
          currentRow := some (jsSetKey r cfg.downloadUrlHeader (some (cfg.baseUrl ++ h))) }) := by
  have hfal : jsFalsyStr (some h) = false := by
    simp [jsFalsyStr, hne]
  constructor
  · intro hview
    simp [extractStep, hfal, hview, hrow]
  · intro hview hdown
    simp [extractStep, hfal, hview, hdown, hrow]

/-- C7 witness: href `/view/123` under view prefix `/view/` and base
`https://ex.com` fills the view column with `https://ex.com/view/123`, even
while a cell accumulator is open with pending text, which is untouched. -/
theorem anchor_href_sets_reserved_url_columns_witness :
    extractStep cfgEx ⟨some [], some "pending", []⟩
        (.openTag "a" none (some "/view/123")) =
      .ok ⟨some [("view_url", some "https://ex.com/view/123")],
        some "pending", []⟩ :=
  (anchor_href_sets_reserved_url_columns cfgEx ⟨some [], some "pending", []⟩ []
    none "/view/123" rfl (by decide)).1 rfl

/-! ## Claim C10 -/

/-- Markup of a first `parsePage` invocation ending with a row and a cell
still open: `<tr><td>Alice`. -/
def firstInvocationEvents : List HtmlEvent :=
  [.openTag "tr" none none, .openTag "td" none none, .text "Alice"]

/-- Markup of a second `parsePage` invocation on the same instance:
`</td><td>30</td></tr>`. -/
def secondInvocationEvents : List HtmlEvent :=
  [.closeTag "td", .openTag "td" none none, .text "30", .closeTag "td",
   .closeTag "tr"]

/-- C10: `currentRow` and `currentCell` are instance state never reset at
`parsePage` entry. The first invocation ends with a row opened but unclosed
and the accumulator holding `"Alice"`; the second invocation on the same
instance starts from exactly that leftover state and its cells keep filling
the previous invocation's unfinished record, emitting the combined record
`{name: "Alice", age: "30"}`. Running the second markup on a freshly
constructed instance instead (no leftover state, `currentRow` undefined)
throws inside the handlers rather than starting from an empty record. -/
theorem parse_state_carries_across_invocations :
    extractRun cfgEx freshScraperState firstInvocationEvents =
      .ok ⟨some [], some "Alice", []⟩ ∧
    extractRun cfgEx ⟨some [], some "Alice", []⟩ secondInvocationEvents =
      .ok ⟨some [], none, [[("name", some "Alice"), ("age", some "30")]]⟩ ∧
    extractRun cfgEx freshScraperState secondInvocationEvents = .error () :=
  ⟨rfl, rfl, rfl⟩

/-! ## Fetching a page (BaseScraper.scrapePage with axios) -/

/-- What the network produced for one request: either a complete HTTP
response (any status) or a transport-level failure with an error code. The
page body is carried as its htmlparser2 event stream. -/
inductive FetchOutcome where
  | response (status : Nat) (body : List HtmlEvent)
  | networkFailure (code : String)

/-- The error raised by the fetch-and-parse path of a page task. -/
inductive PageError where
  | httpError (status : Nat)
  | netError (code : String)
  | parseError
deriving DecidableEq, Repr

/-- Axios default `validateStatus`: only 2xx responses resolve. -/
def axiosValidateStatus (s : Nat) : Bool :=
  200 ≤ s && s < 300

/-- Source `axios.get(pageUrl, ...)`: resolves with the response for a 2xx
status; rejects with an error carrying the status otherwise (axios default
`validateStatus`), and rejects with the transport error code when no
response arrived. -/
def axiosGet (o : FetchOutcome) : Except PageError (Nat × List HtmlEvent) :=
  match o with
  | .response s b => if axiosValidateStatus s then .ok (s, b) else .error (.httpError s)
  | .networkFailure c => .error (.netError c)

/-- Source `BaseScraper.scrapePage(pageUrl)`: await the fetch; on status 200
parse the body and return `true`; on any other (2xx) status log a warning
and return `false`; any thrown error (axios rejection or parser failure) is
caught, logged, and RE-THROWN. The returned Bool is what the queue task uses
to decide whether to advance the checkpoint. -/
def scrapePage (cfg : ExtractConfig) (st : ExtractState) (o : FetchOutcome) :
    Except PageError (Bool × ExtractState) :=
  match axiosGet o with
  | .error e => .error e
  | .ok (s, body) =>
    if s == 200 then
      match extractRun cfg st body with
      | .ok st2 => .ok (true, st2)
      | .error _ => .error .parseError
    else .ok (false, st)

/-- A page counts as completed (triggering `saveProgress`) exactly when its
task resolves with `true`. -/
def pageCompleted (cfg : ExtractConfig) (st : ExtractState)
    (o : FetchOutcome) : Bool :=
  match scrapePage cfg st o with
  | .ok (true, _) => true
  | _ => false

/-! ## Claim C8 -/

/-- C8 (code_bug evidence): a non-2xx terminal status is NOT delivered as a
returned result. Axios rejects non-2xx responses by default, so a 404
surfaces from `scrapePage` as a thrown error (caught, logged, and rethrown
by the task) — the log-and-skip branch `response.status !== 200` is
reachable only for 2xx statuses such as 204, which IS returned as a result
carrying `false`. In both cases the page is not marked completed, so its
index never reaches the checkpoint store. -/
theorem non2xx_status_is_thrown_not_returned :
    scrapePage cfgEx freshScraperState (.response 404 []) =
      .error (.httpError 404) ∧
    scrapePage cfgEx freshScraperState (.response 204 []) =
      .ok (false, freshScraperState) ∧
    pageCompleted cfgEx freshScraperState (.response 404 []) = false ∧
    pageCompleted cfgEx freshScraperState (.response 204 []) = false :=
  ⟨rfl, rfl, rfl, rfl⟩

/-! ## Retry policy (configureAxiosRetryInstance with axios-retry) -/

/-- The failure object axios-retry inspects: `error.response?.status` and
`error.code`. -/
structure AxiosFailure where
  status : Option Nat
  code : Option String
deriving DecidableEq, Repr

/-- The status list of the source retry condition. -/
def retryStatusList : List Nat :=
  [500, 502, 503, 504]

/-- Source `retryCondition`: status 429, code `ECONNABORTED`, or a status in
`[500, 502, 503, 504]` (JS `includes` on an absent status is false). -/
def retryCondition (e : AxiosFailure) : Bool :=
  (e.status == some 429) || (e.code == some "ECONNABORTED") ||
    (match e.status with
      | some s => retryStatusList.contains s
      | none => false)

/-- Source `retryDelay(retryCount, error)` in milliseconds: `retryCount *
2000` for HTTP 429, `retryCount * 1000` otherwise. -/
def retryDelayMs (retryCount : Nat) (e : AxiosFailure) : Nat :=
  if e.status == some 429 then retryCount * 2000 else retryCount * 1000

/-- Source `retries: 3` handed to axios-retry: the retry ceiling beyond the
initial attempt. -/
def axiosRetryCeiling : Nat :=
  3

/-- Trace of one fetch through axios-retry: the final outcome, the backoff
delays slept between attempts (in order), and the number of attempts made. -/
structure RetryTrace where
  outcome : Except AxiosFailure Nat
  delays : List Nat
  attempts : Nat
deriving Repr

/-- The axios-retry driver: attempt the request; on a failure satisfying
`retryCondition` and with retries remaining, sleep `retryDelay` for the next
retry number and re-attempt. `f n` is the outcome of the (0-based) n-th
attempt; the successful value is the HTTP status. -/
def retryRun (f : Nat → Except AxiosFailure Nat) :
    Nat → Nat → RetryTrace
  | 0, n =>
    { outcome := f n, delays := [], attempts := 1 }
  | fuel + 1, n =>
    match f n with
    | .ok v => { outcome := .ok v, delays := [], attempts := 1 }
    | .error e =>
      if retryCondition e then
        let r := retryRun f fuel (n + 1)
        { outcome := r.outcome
          delays := retryDelayMs (n + 1) e :: r.delays
          attempts := r.attempts + 1 }
      else { outcome := .error e, delays := [], attempts := 1 }

/-- A fetch as configured by `configureAxiosRetryInstance`: up to 3 retries
after the initial attempt. -/
def fetchWithRetry (f : Nat → Except AxiosFailure Nat) : RetryTrace :=
  retryRun f axiosRetryCeiling 0

/-! ## Claim C4 -/

/-- C4: a failure is retried exactly when it is HTTP 429, one of HTTP
500/502/503/504, or a connection timeout/abort (`ECONNABORTED`); the backoff
before retry number n is n * 2 seconds for HTTP 429 and n * 1 second for
every other retryable failure; the ceiling is 3 retries beyond the initial
attempt, so a permanently retryable failure makes exactly 4 attempts with
backoffs for retry numbers 1, 2, 3, while a terminal failure makes exactly
one attempt and no backoff. -/
theorem retry_exactly_for_transient_failures :
    (∀ e : AxiosFailure, retryCondition e = true ↔
      (e.status = some 429 ∨ e.status = some 500 ∨ e.status = some 502 ∨
        e.status = some 503 ∨ e.status = some 504 ∨
        e.code = some "ECONNABORTED")) ∧
    (∀ (n : Nat) (e : AxiosFailure), e.status = some 429 →
      retryDelayMs n e = n * 2000) ∧
    (∀ (n : Nat) (e : AxiosFailure), e.status ≠ some 429 →
      retryDelayMs n e = n * 1000) ∧
    axiosRetryCeiling = 3 ∧
    (∀ e : AxiosFailure, retryCondition e = true →
      fetchWithRetry (fun _ => .error e) =
        { outcome := .error e
          delays := [retryDelayMs 1 e, retryDelayMs 2 e, retryDelayMs 3 e]
          attempts := 4 }) ∧
    (∀ e : AxiosFailure, retryCondition e = false →
      fetchWithRetry (fun _ => .error e) =
        { outcome := .error e, delays := [], attempts := 1 }) := by
  refine ⟨?_, ?_, ?_, rfl, ?_, ?_⟩
  · rintro ⟨st, cd⟩
    cases st with
    | none =>
      simp [retryCondition, retryStatusList]
    | some s =>
      simp [retryCondition, retryStatusList]
      tauto
  · intro n e h429
    simp [retryDelayMs, h429]
  · intro n e h429
    have : (e.status == some 429) = false := by
      simp only [beq_eq_false_iff_ne, ne_eq]
      exact h429
    simp [retryDelayMs, this]
  · intro e hretry
    simp [fetchWithRetry, retryRun, axiosRetryCeiling, hretry]
  · intro e hretry
    simp [fetchWithRetry, retryRun, axiosRetryCeiling, hretry]

/-- C4 witness: an HTTP 503 failure on every attempt is retried with
backoffs 1s, 2s, 3s and gives up after 4 attempts; and the classification
holds at 503. -/
theorem retry_exactly_for_transient_failures_witness :
    fetchWithRetry (fun _ => .error ⟨some 503, none⟩) =
      { outcome := .error ⟨some 503, none⟩
        delays := [retryDelayMs 1 ⟨some 503, none⟩,
          retryDelayMs 2 ⟨some 503, none⟩, retryDelayMs 3 ⟨some 503, none⟩]
        attempts := 4 } ∧
    retryDelayMs 2 ⟨some 503, none⟩ = 2 * 1000 :=
  ⟨(retry_exactly_for_transient_failures.2.2.2.2.1 ⟨some 503, none⟩ rfl),
    retry_exactly_for_transient_failures.2.2.1 2 ⟨some 503, none⟩ (by decide)⟩
